import Mathlib

/-!
Shallow embedding of the RiftRewind backend's statistics pipeline: the
Riot-API retry client (riotClient), the duo aggregator
(duoSummaryGenerator), the player aggregator (summaryGenerator), the job
manager's read-modify-write updates and the job processor's control flow.
JavaScript numbers are modelled as rationals, absent optional fields as
Option, and JS objects used as group-by maps as association lists in key
insertion order (the order JS object iteration preserves for string keys).
-/

/-- Math.round as JS computes it for the nonnegative values arising here:
round half away from zero, the floor of x + 1/2. -/
def jsRound (q : ℚ) : ℤ := ⌊q + 1/2⌋

/-- Two-decimal rounding, Math.round(x * 100) / 100. -/
def round2 (q : ℚ) : ℚ := (jsRound (q * 100) : ℚ) / 100

/-- One-decimal rounding, Math.round(x * 10) / 10. -/
def round1 (q : ℚ) : ℚ := (jsRound (q * 10) : ℚ) / 10

/-- JS `a || b` for numbers whose absent value reads as 0 (0 is falsy). -/
def jsOrNat (a b : ℕ) : ℕ := if a = 0 then b else a

/-- JS `s || t` for strings, where undefined and the empty string are falsy. -/
def jsOrStr (s t : String) : String := if s = "" then t else s

/-- The optional per-participant derived metrics under `challenges`; the
whole block or an individual field may be absent upstream. -/
structure Challenges where
  killParticipation : Option ℚ
  teamDamagePercentage : Option ℚ
deriving DecidableEq

/-- One competitor's entry in a match record. String fields that may be
absent upstream are modelled with "" standing for undefined; the code only
reads them through `|| fallback`, for which "" and undefined agree. Numeric
fields are only read through `|| 0`, for which 0 and undefined agree. -/
structure Participant where
  puuid : String
  teamId : ℕ
  win : Bool
  kills : ℕ
  deaths : ℕ
  assists : ℕ
  visionScore : ℕ
  teamPosition : String
  championName : String
  riotIdGameName : String
  summonerName : String
  riotIdTagline : String
  challenges : Option Challenges
deriving DecidableEq

structure MatchInfo where
  queueId : ℕ
  gameDuration : ℕ
  gameCreation : ℕ
  gameEndTimestamp : ℕ
  gameVersion : String
  participants : List Participant
deriving DecidableEq

/-- A raw match record; the code reads everything through `match.info`. -/
structure MatchRec where
  info : MatchInfo
deriving DecidableEq

/-- participants.find(p => p.puuid === puuid). -/
def findParticipant (ps : List Participant) (pid : String) : Option Participant :=
  ps.find? (fun p => p.puuid == pid)

/-- participant.challenges?.killParticipation, none when the block or the
field is absent. -/
def kpOf (p : Participant) : Option ℚ := p.challenges.bind Challenges.killParticipation

/-- participant.challenges?.teamDamagePercentage. -/
def tdOf (p : Participant) : Option ℚ := p.challenges.bind Challenges.teamDamagePercentage

/-- teamPosition || 'UNKNOWN' applied to a raw position label. -/
def roleStr (s : String) : String := jsOrStr s "UNKNOWN"

/-- participant.teamPosition || 'UNKNOWN'. -/
def roleOf (p : Participant) : String := roleStr p.teamPosition

/-- queueId === 420 || queueId === 440, the ranked filter both aggregators apply. -/
def isRankedQueue (m : MatchRec) : Bool := m.info.queueId == 420 || m.info.queueId == 440

/-- Canonical pair key, [a, b].sort().join('-'): JS Array.sort on two strings
orders them ascending, so the key is the sorted pair joined by a dash. -/
def pairKey (a b : String) : String :=
  if a ≤ b then a ++ "-" ++ b else b ++ "-" ++ a

/-- Stable descending insertion by a numeric key, the JS pattern
.sort((x, y) => key(y) - key(x)). Array.prototype.sort is stable, and two
stable sorts with the same comparator return the same list. -/
def insertDesc {α : Type} (key : α → ℕ) (x : α) : List α → List α
  | [] => [x]
  | y :: ys => if key y ≤ key x then x :: y :: ys else y :: insertDesc key x ys

/-- Stable descending sort by a numeric key. -/
def sortDesc {α : Type} (key : α → ℕ) : List α → List α
  | [] => []
  | x :: xs => insertDesc key x (sortDesc key xs)

structure QueueBucket where
  queueId : ℕ
  games : ℕ
  wins : ℕ
deriving DecidableEq

/-- One role-pair or champion-pair group; `pair` keeps the first-seen
orientation, as the JS object stores the unsorted [a, b] at creation. -/
structure PairBucket where
  pair : String × String
  games : ℕ
  wins : ℕ
deriving DecidableEq

/-- summary.queueBreakdown[queueId]: create games 0 / wins 0 on first sight
(JS appends new keys at the end), then increment games, and wins when player
A's entry won. -/
def bumpQueue (l : List QueueBucket) (q : ℕ) (win : Bool) : List QueueBucket :=
  match l with
  | [] => [⟨q, 1, if win then 1 else 0⟩]
  | b :: rest =>
    if b.queueId = q then ⟨b.queueId, b.games + 1, b.wins + (if win then 1 else 0)⟩ :: rest
    else b :: bumpQueue rest q win

/-- rolePairCounts[key] and championPairCounts[key] update of
generateDuoSummary: create the bucket with the unsorted pair on first sight,
then increment games and conditionally wins. -/
def bumpPair (l : List (String × PairBucket)) (x y : String) (win : Bool) :
    List (String × PairBucket) :=
  match l with
  | [] => [(pairKey x y, ⟨(x, y), 1, if win then 1 else 0⟩)]
  | (k, b) :: rest =>
    if k = pairKey x y then
      (k, ⟨b.pair, b.games + 1, b.wins + (if win then 1 else 0)⟩) :: rest
    else (k, b) :: bumpPair rest x y win

/-- patchCounts[patch] update: (games, wins) per patch string. -/
def bumpPatch (l : List (String × ℕ × ℕ)) (patch : String) (win : Bool) :
    List (String × ℕ × ℕ) :=
  match l with
  | [] => [(patch, 1, if win then 1 else 0)]
  | (k, g, w) :: rest =>
    if k = patch then (k, g + 1, w + (if win then 1 else 0)) :: rest
    else (k, g, w) :: bumpPatch rest patch win

/-- gameVersion.split('.').slice(0, 2).join('.'). -/
def patchOf (version : String) : String :=
  String.intercalate "." ((version.splitOn ".").take 2)

/-- The mutable accumulators of generateDuoSummary's loop over duoMatches. -/
structure DuoAcc where
  wins : ℕ
  queueBreakdown : List QueueBucket
  rolePairCounts : List (String × PairBucket)
  championPairCounts : List (String × PairBucket)
  patchCounts : List (String × ℕ × ℕ)
  sideBlue : ℕ
  sideRed : ℕ
  totalGameDuration : ℕ
  totalCombinedKA : ℕ
  totalKPa : ℚ
  totalKPb : ℚ
  totalVisionA : ℕ
  totalVisionB : ℕ
  totalDamagePctA : ℚ
  totalDamagePctB : ℚ
  countWithData : ℕ

def initDuoAcc : DuoAcc := ⟨0, [], [], [], [], 0, 0, 0, 0, 0, 0, 0, 0, 0, 0, 0⟩

/-- One iteration of generateDuoSummary's loop. On a duo match both lookups
succeed; the fallthrough leaves the accumulator unchanged (unreachable in JS
because duoMatches was filtered on both lookups succeeding). Conditional
additions `if (x !== undefined) total += x` are written as adding the value
or 0; countWithData increments exactly when player A's kill-participation is
present, as in the source. -/
def duoStep (puuidA puuidB : String) (acc : DuoAcc) (m : MatchRec) : DuoAcc :=
  match findParticipant m.info.participants puuidA,
        findParticipant m.info.participants puuidB with
  | some pA, some pB =>
    { wins := acc.wins + (if pA.win then 1 else 0)
      queueBreakdown := bumpQueue acc.queueBreakdown m.info.queueId pA.win
      rolePairCounts := bumpPair acc.rolePairCounts (roleOf pA) (roleOf pB) pA.win
      championPairCounts := bumpPair acc.championPairCounts pA.championName pB.championName pA.win
      patchCounts :=
        if patchOf m.info.gameVersion = "" then acc.patchCounts
        else bumpPatch acc.patchCounts (patchOf m.info.gameVersion) pA.win
      sideBlue := acc.sideBlue + (if pA.teamId = 100 then 1 else 0)
      sideRed := acc.sideRed + (if pA.teamId = 100 then 0 else 1)
      totalGameDuration := acc.totalGameDuration + m.info.gameDuration
      totalCombinedKA := acc.totalCombinedKA + (pA.kills + pA.assists + pB.kills + pB.assists)
      totalKPa := acc.totalKPa + (kpOf pA).getD 0
      totalKPb := acc.totalKPb + (kpOf pB).getD 0
      totalVisionA := acc.totalVisionA + pA.visionScore
      totalVisionB := acc.totalVisionB + pB.visionScore
      totalDamagePctA := acc.totalDamagePctA + (tdOf pA).getD 0
      totalDamagePctB := acc.totalDamagePctB + (tdOf pB).getD 0
      countWithData := acc.countWithData + (if (kpOf pA).isSome then 1 else 0) }
  | _, _ => acc

structure DuoSynergy where
  avgCombinedKA : ℚ
  avgKillParticipationA : Option ℚ
  avgKillParticipationB : Option ℚ
  avgVisionScoreA : ℚ
  avgVisionScoreB : ℚ
  avgTeamDamagePctA : Option ℚ
  avgTeamDamagePctB : Option ℚ
deriving DecidableEq

structure GameTexture where
  avgGameDurationMin : ℚ
  sideBlue : ℕ
  sideRed : ℕ
  byPatch : List (String × ℕ × ℕ)
deriving DecidableEq

/-- The duo summary object. Fields the early no-matches return does not set
are modelled none or []; duoKey and meta (identities echoed back, the queue
filter and the generation timestamp) are not modelled. A JS field that is
only conditionally assigned (lowSample) is an Option: none when the
assignment did not run, so the field is absent. -/
structure DuoSummary where
  sampleSize : ℕ
  wins : ℕ
  queueBreakdown : List QueueBucket
  rolePairs : List PairBucket
  championPairsTop : List PairBucket
  synergy : Option DuoSynergy
  gameTexture : Option GameTexture
  lowSample : Option Bool
  message : Option String
deriving DecidableEq

/-- The duo-match subset: ranked matches in which both players have a
participant entry and those entries share the same team. -/
def duoMatchesOf (puuidA puuidB : String) (matchesData : List MatchRec) : List MatchRec :=
  (matchesData.filter isRankedQueue).filter (fun m =>
    match findParticipant m.info.participants puuidA,
          findParticipant m.info.participants puuidB with
    | some pA, some pB => pA.teamId == pB.teamId
    | _, _ => false)

/-- Pure core of generateDuoSummary (duoSummaryGenerator, part_003): the
directory listing, JSON file read and logging are omitted; the statistics
over the parsed match list are modelled exactly. -/
def generateDuoSummary (puuidA puuidB : String) (matchesData : List MatchRec) : DuoSummary :=
  let duoMatches := duoMatchesOf puuidA puuidB matchesData
  if duoMatches.isEmpty then
    { sampleSize := 0, wins := 0, queueBreakdown := [], rolePairs := [],
      championPairsTop := [], synergy := none, gameTexture := none,
      lowSample := none, message := some "No matches found playing together" }
  else
    let acc := duoMatches.foldl (duoStep puuidA puuidB) initDuoAcc
    let matchCount := duoMatches.length
    { sampleSize := matchCount
      wins := acc.wins
      queueBreakdown := acc.queueBreakdown
      rolePairs := sortDesc PairBucket.games (acc.rolePairCounts.map Prod.snd)
      championPairsTop :=
        (sortDesc PairBucket.games (acc.championPairCounts.map Prod.snd)).take 10
      synergy := some
        { avgCombinedKA := round1 ((acc.totalCombinedKA : ℚ) / matchCount)
          avgKillParticipationA :=
            if 0 < acc.countWithData then some (round2 (acc.totalKPa / acc.countWithData))
            else none
          avgKillParticipationB :=
            if 0 < acc.countWithData then some (round2 (acc.totalKPb / acc.countWithData))
            else none
          avgVisionScoreA := round1 ((acc.totalVisionA : ℚ) / matchCount)
          avgVisionScoreB := round1 ((acc.totalVisionB : ℚ) / matchCount)
          avgTeamDamagePctA :=
            if 0 < acc.countWithData then some (round2 (acc.totalDamagePctA / acc.countWithData))
            else none
          avgTeamDamagePctB :=
            if 0 < acc.countWithData then some (round2 (acc.totalDamagePctB / acc.countWithData))
            else none }
      gameTexture := some
        { avgGameDurationMin := round1 ((acc.totalGameDuration : ℚ) / matchCount / 60)
          sideBlue := acc.sideBlue
          sideRed := acc.sideRed
          byPatch := sortDesc (fun e => e.2.1) acc.patchCounts }
      lowSample := if matchCount < 5 then some true else none
      message := none }

/-- The mutable accumulators of calculatePlaystyleMetrics' loop. -/
structure PlaystyleAcc where
  totalKills : ℕ
  totalDeaths : ℕ
  totalAssists : ℕ
  totalKillParticipation : ℚ
  totalVisionScore : ℕ
  totalTeamDamageShare : ℚ
  countWithKP : ℕ
  countWithDamageShare : ℕ

def initPlaystyleAcc : PlaystyleAcc := ⟨0, 0, 0, 0, 0, 0, 0, 0⟩

/-- One iteration of calculatePlaystyleMetrics' loop: a match without the
target's participant entry is skipped; kill-participation and
team-damage-share contribute, each with its own valid-sample counter, only
when present. -/
def playstyleStep (pid : String) (acc : PlaystyleAcc) (m : MatchRec) : PlaystyleAcc :=
  match findParticipant m.info.participants pid with
  | none => acc
  | some p =>
    { totalKills := acc.totalKills + p.kills
      totalDeaths := acc.totalDeaths + p.deaths
      totalAssists := acc.totalAssists + p.assists
      totalKillParticipation := acc.totalKillParticipation + (kpOf p).getD 0
      totalVisionScore := acc.totalVisionScore + p.visionScore
      totalTeamDamageShare := acc.totalTeamDamageShare + (tdOf p).getD 0
      countWithKP := acc.countWithKP + (if (kpOf p).isSome then 1 else 0)
      countWithDamageShare := acc.countWithDamageShare + (if (tdOf p).isSome then 1 else 0) }

structure Playstyle where
  avgKDA : ℚ
  avgKillParticipation : Option ℚ
  avgVisionScore : ℚ
  avgTeamDamageShare : Option ℚ
  totalGames : ℕ
  totalKills : ℕ
  totalDeaths : ℕ
  totalAssists : ℕ
deriving DecidableEq

/-- calculatePlaystyleMetrics (summaryGenerator, part_005).
matches.length || 1 and totalDeaths || 1 are the JS falsy-0 guards. -/
def calculatePlaystyleMetrics (ms : List MatchRec) (pid : String) : Playstyle :=
  let acc := ms.foldl (playstyleStep pid) initPlaystyleAcc
  let matchCount := jsOrNat ms.length 1
  let deaths := jsOrNat acc.totalDeaths 1
  { avgKDA := round2 (((acc.totalKills : ℚ) + (acc.totalAssists : ℚ)) / (deaths : ℚ))
    avgKillParticipation :=
      if 0 < acc.countWithKP then
        some (round2 (acc.totalKillParticipation / (acc.countWithKP : ℚ)))
      else none
    avgVisionScore := round1 ((acc.totalVisionScore : ℚ) / (matchCount : ℚ))
    avgTeamDamageShare :=
      if 0 < acc.countWithDamageShare then
        some (round2 (acc.totalTeamDamageShare / (acc.countWithDamageShare : ℚ)))
      else none
    totalGames := matchCount
    totalKills := acc.totalKills
    totalDeaths := acc.totalDeaths
    totalAssists := acc.totalAssists }

/-- Per-teammate accumulators of calculateFrequentTeammates (the
teammateStats[tPuuid] record before formatting). -/
structure TmRaw where
  summonerName : String
  tagLine : String
  gamesTogether : ℕ
  winsTogether : ℕ
  lastPlayedAt : ℕ
  rolePairs : List (String × ℕ)
  championPairs : List (String × ℕ)
deriving DecidableEq

/-- stats.rolePairs[key] = (stats.rolePairs[key] || 0) + 1 on a JS object,
new keys appended in insertion order. -/
def bumpCount (l : List (String × ℕ)) (k : String) : List (String × ℕ) :=
  match l with
  | [] => [(k, 1)]
  | (k0, n) :: rest =>
    if k0 = k then (k0, n + 1) :: rest else (k0, n) :: bumpCount rest k

/-- The fresh teammateStats record: riotIdGameName || summonerName ||
'Unknown', riotIdTagline || ''. -/
def initTm (tm : Participant) : TmRaw :=
  ⟨jsOrStr tm.riotIdGameName (jsOrStr tm.summonerName "Unknown"),
   tm.riotIdTagline, 0, 0, 0, [], []⟩

/-- The per-teammate update run for every teammate of every match: games,
wins (taken from the target player's own win flag), max-seen timestamp, and
canonicalized role-pair and champion-pair counters. -/
def updateTm (r : TmRaw) (player tm : Participant) (ts : ℕ) : TmRaw :=
  { r with
    gamesTogether := r.gamesTogether + 1
    winsTogether := r.winsTogether + (if player.win then 1 else 0)
    lastPlayedAt := if r.lastPlayedAt < ts then ts else r.lastPlayedAt
    rolePairs := bumpCount r.rolePairs (pairKey (roleOf player) (roleOf tm))
    championPairs := bumpCount r.championPairs (pairKey player.championName tm.championName) }

/-- teammateStats[tPuuid]: create the record on first sight (appended at the
end, JS object insertion order), then apply the update. -/
def bumpTeammate (st : List (String × TmRaw)) (player tm : Participant) (ts : ℕ) :
    List (String × TmRaw) :=
  match st with
  | [] => [(tm.puuid, updateTm (initTm tm) player tm ts)]
  | (k, r) :: rest =>
    if k = tm.puuid then (k, updateTm r player tm ts) :: rest
    else (k, r) :: bumpTeammate rest player tm ts

/-- One iteration of calculateFrequentTeammates' outer loop: find the target
player, compute the match timestamp (gameCreation || gameEndTimestamp || 0),
and fold the update over all same-team participants other than the target. -/
def teammateStep (pid : String) (st : List (String × TmRaw)) (m : MatchRec) :
    List (String × TmRaw) :=
  match findParticipant m.info.participants pid with
  | none => st
  | some player =>
    let ts := jsOrNat m.info.gameCreation m.info.gameEndTimestamp
    let teammates := m.info.participants.filter
      (fun p => p.teamId == player.teamId && p.puuid != pid)
    teammates.foldl (fun s tm => bumpTeammate s player tm ts) st

/-- The teammateStats map after the whole match list is processed. -/
def teammateStatsMap (ms : List MatchRec) (pid : String) : List (String × TmRaw) :=
  ms.foldl (teammateStep pid) []

structure TeammateOut where
  puuid : String
  summonerName : String
  tagLine : String
  gamesTogether : ℕ
  winsTogether : ℕ
  lastPlayedAt : ℕ
  topRolePairs : List (List String)
  topChampionPairs : List (List String)
deriving DecidableEq

/-- calculateFrequentTeammates (part_005): sort the stats descending by games
together, take the top 10, and emit the 2 most frequent role pairs and the 3
most frequent champion pairs, each pair key split back on the dash. The JS
Object.values order is the association list's insertion order; the stored
stats.puuid equals the map key. -/
def calculateFrequentTeammates (ms : List MatchRec) (pid : String) : List TeammateOut :=
  let sorted := (sortDesc (fun e => e.2.gamesTogether) (teammateStatsMap ms pid)).take 10
  sorted.map (fun e =>
    { puuid := e.1
      summonerName := e.2.summonerName
      tagLine := e.2.tagLine
      gamesTogether := e.2.gamesTogether
      winsTogether := e.2.winsTogether
      lastPlayedAt := e.2.lastPlayedAt
      topRolePairs := ((sortDesc Prod.snd e.2.rolePairs).take 2).map (fun kv => kv.1.splitOn "-")
      topChampionPairs :=
        ((sortDesc Prod.snd e.2.championPairs).take 3).map (fun kv => kv.1.splitOn "-") })

/-- One attempt's upstream outcome for the retry client: an HTTP response
(axios is configured with validateStatus: () => true, so every status
resolves to a response) or a network-level failure carrying no response. -/
inductive AttemptOutcome where
  | resp (code : ℕ) (body : String)
  | netErr (msg : String)
deriving DecidableEq

inductive ReqResult where
  | success (body : String) (attempts : ℕ)
  | riotError (code : ℕ) (details : String) (attempts : ℕ)
  | netFailure (msg : String) (attempts : ℕ)
  | exhausted (attempts : ℕ)
deriving DecidableEq

/-- The retry loop of request (riotClient, part_002 lines 37 to 80). env k is
attempt k's outcome, attempts numbered from 1; fuel is the remaining loop
iterations (7 - attempt). Sleeps and jitter affect timing only and are not
modelled; backoff is tracked as the code does. The typed error thrown for a
status other than 200, 429 and 5xx is built with new Error and carries no
.response field, so the catch in the same loop body does not rethrow it: it
is thrown out only once attempt >= 7, and otherwise the loop retries it like
a network error. -/
def requestAux (env : ℕ → AttemptOutcome) : ℕ → ℕ → ℕ → ReqResult
  | 0, attempt, _ => ReqResult.exhausted attempt
  | fuel + 1, attempt, backoff =>
    let a := attempt + 1
    match env a with
    | .resp code body =>
      if code = 200 then .success body a
      else if code = 429 then requestAux env fuel a (min (backoff * 2) 16000)
      else if 500 ≤ code ∧ code < 600 then requestAux env fuel a (min (backoff * 2) 16000)
      else if 7 ≤ a then .riotError code body a
      else requestAux env fuel a (min (backoff * 2) 16000)
    | .netErr msg =>
      if 7 ≤ a then .netFailure msg a
      else requestAux env fuel a (min (backoff * 2) 16000)

/-- request(url): up to 7 attempts starting from backoff 500ms. -/
def request (env : ℕ → AttemptOutcome) : ReqResult := requestAux env 7 0 500

inductive JobStatus where
  | queued
  | running
  | complete
  | error
deriving DecidableEq

/-- The persisted job record's fields that processJob's terminal transitions
set; the result is abstracted to a token since only status and error matter
to the claims. -/
structure JobRec where
  status : JobStatus
  error : Option String
  result : Option String
deriving DecidableEq

/-- The fallible steps of processJob (server.js lines 306 to 358) after the
job is marked running, each modelled by its outcome. Job-store reads and
writes themselves are modelled as reliable. The summoner fetch-and-save step
sits in its own try/catch and its failure is ignored; each match fetch is
caught individually, a failing one becoming null and being filtered out. -/
structure JobOutcomes where
  mkdirOut : Except String Unit
  apiKeyOut : Except String Unit
  accountOut : Except String String
  writeAccountOut : Except String Unit
  summonerOut : Except String Unit
  matchIdsOut : Except String (List String)
  matchOuts : List (Except String MatchRec)
  writeMatchesOut : Except String Unit
  summaryOut : Except String String
  writeSummaryOut : Except String Unit

/-- The match bodies that resolved; failed fetches were caught, returned null
and are filtered out before the matches file is written. -/
def fetchedMatches (o : JobOutcomes) : List MatchRec :=
  o.matchOuts.filterMap (fun r => r.toOption)

/-- The try block of processJob after markRunning, in program order. The
summoner step and the individual match fetches cannot fail it. -/
def processJobBody (o : JobOutcomes) : Except String String := do
  let _ ← o.mkdirOut
  let _ ← o.apiKeyOut
  let _ ← o.accountOut
  let _ ← o.writeAccountOut
  let _ ← o.matchIdsOut
  let _ ← o.writeMatchesOut
  let s ← o.summaryOut
  let _ ← o.writeSummaryOut
  Except.ok s

/-- processJob: after markRunning, run the body; the catch-all marks the job
error with the exception's message on any failure, and markComplete stores
the result on success. The caller invokes processJob(jobId) without awaiting
it and attaches .catch, so no failure reaches the job-creation caller. -/
def processJob (o : JobOutcomes) : JobRec :=
  match processJobBody o with
  | .ok s => { status := .complete, error := none, result := some s }
  | .error m => { status := .error, error := some m, result := none }

/-- The first fatal step failure of a job run, in program order; the summoner
step and individual match-fetch failures are tolerated and never appear. -/
def firstFatalError (o : JobOutcomes) : Option String :=
  match o.mkdirOut with
  | .error m => some m
  | .ok _ =>
    match o.apiKeyOut with
    | .error m => some m
    | .ok _ =>
      match o.accountOut with
      | .error m => some m
      | .ok _ =>
        match o.writeAccountOut with
        | .error m => some m
        | .ok _ =>
          match o.matchIdsOut with
          | .error m => some m
          | .ok _ =>
            match o.writeMatchesOut with
            | .error m => some m
            | .ok _ =>
              match o.summaryOut with
              | .error m => some m
              | .ok _ =>
                match o.writeSummaryOut with
                | .error m => some m
                | .ok _ => none

/-- A suspension-point action of one JobManager.updateJob call (part_004
lines 252 to 265, the storage-backed class server.js instantiates): update i
first awaits getJob (readAct i) and then awaits saveJob (writeAct i). -/
inductive UpdAction where
  | readAct (i : ℕ)
  | writeAct (i : ℕ)
deriving DecidableEq

/-- The store and the in-flight updates: regs holds the job record each
update's getJob returned (only its progress field is modelled), trace the
progress values of the successively persisted records. -/
structure RMWState where
  regs : List (Option ℤ)
  storeProgress : ℤ
  trace : List ℤ
deriving DecidableEq

/-- One step of an interleaved execution of updateJob calls where update i
carries progress value p[i]. The spread of the updates object over the read
record overwrites progress with p[i] outright, so what was read only feeds
the fields this update does not set. -/
def applyUpd (p : List ℤ) (s : RMWState) (a : UpdAction) : RMWState :=
  match a with
  | .readAct i => { s with regs := s.regs.set i (some s.storeProgress) }
  | .writeAct i =>
    { s with storeProgress := p.getD i 0, trace := s.trace ++ [p.getD i 0] }

/-- Run a schedule of read and write actions over the initial store. -/
def runSchedule (p : List ℤ) (acts : List UpdAction) : RMWState :=
  acts.foldl (applyUpd p) ⟨List.replicate p.length none, 0, []⟩

/-- The progress values processJob submits while n match fetches resolve: the
k-th resolution (1-based, since completedMatches++ runs before the update)
reports Math.round((k / n) * 100). -/
def progressValues (n : ℕ) : List ℤ :=
  (List.range n).map (fun k => jsRound ((((k + 1 : ℕ) : ℚ) / (n : ℚ)) * 100))

def serialOf : List ℕ → List UpdAction
  | [] => []
  | i :: t => UpdAction.readAct i :: UpdAction.writeAct i :: serialOf t

/-- The serialized schedule: each update's read and write complete before the
next update begins. -/
def serialSchedule (n : ℕ) : List UpdAction := serialOf (List.range n)

def isNonDecreasing : List ℤ → Bool
  | [] => true
  | [_] => true
  | a :: b :: t => decide (a ≤ b) && isNonDecreasing (b :: t)

def isReadOf (i : ℕ) : UpdAction → Bool
  | .readAct j => j == i
  | .writeAct _ => false

def isWriteOf (i : ℕ) : UpdAction → Bool
  | .readAct _ => false
  | .writeAct j => j == i

def readBeforeWrite (acts : List UpdAction) (i : ℕ) : Bool :=
  match acts.findIdx? (isReadOf i), acts.findIdx? (isWriteOf i) with
  | some r, some w => decide (r < w)
  | _, _ => false

/-- A well-formed execution of n updateJob calls: each update reads exactly
once, writes exactly once, and reads before it writes. -/
def isRMWSchedule (n : ℕ) (acts : List UpdAction) : Bool :=
  (acts.length == 2 * n) &&
    (List.range n).all (fun i =>
      (acts.countP (isReadOf i) == 1) && (acts.countP (isWriteOf i) == 1) &&
        readBeforeWrite acts i)

/-- The interleaving in which both updates have read before either write
lands, and the later, larger update's write is persisted first. -/
def overlappedSchedule : List UpdAction :=
  [UpdAction.readAct 0, UpdAction.readAct 1, UpdAction.writeAct 1, UpdAction.writeAct 0]

/-- Follows the spec's words for claim C1 (and C8): the per-player average of
an optional metric is taken only over that player's valid samples and is
null when there are none. Stated for comparison with the code's
shared-denominator computation. -/
def specPerPlayerAverage (vals : List ℚ) : Option ℚ :=
  if vals = [] then none else some (vals.sum / (vals.length : ℚ))

/-- The target's participant entries across a match list (matches without an
entry are skipped). -/
def targetEntries (pid : String) (ms : List MatchRec) : List Participant :=
  ms.filterMap (fun m => findParticipant m.info.participants pid)

/-- The kill-participation values the target supplies across a match list. -/
def presentKP (pid : String) (ms : List MatchRec) : List ℚ :=
  (targetEntries pid ms).filterMap kpOf

/-- The team-damage-share values the target supplies across a match list. -/
def presentTD (pid : String) (ms : List MatchRec) : List ℚ :=
  (targetEntries pid ms).filterMap tdOf

/-- A participant entry with the given identity, team, role and champion and
everything else zero or absent. -/
def mkParticipant (pid : String) (team : ℕ) (role champ : String) : Participant :=
  ⟨pid, team, false, 0, 0, 0, 0, role, champ, "", "", "", none⟩

/-- A ranked duo match for "a" and "b" on one team carrying the given role
labels (exercises role-pair canonicalization in generateDuoSummary). -/
def duoRoleMatch (ra rb : String) : MatchRec :=
  ⟨⟨420, 0, 0, 0, "", [mkParticipant "a" 100 ra "ChampA", mkParticipant "b" 100 rb "ChampB"]⟩⟩

/-- A ranked match for target "t" with teammate "m" carrying the given role
labels (exercises role-pair canonicalization in calculateFrequentTeammates). -/
def mateRoleMatch (rt rm : String) : MatchRec :=
  ⟨⟨420, 0, 0, 0, "", [mkParticipant "t" 100 rt "ChampT", mkParticipant "m" 100 rm "ChampM"]⟩⟩

/-- A ranked duo match in which player "a" carries no challenges block while
player "b" supplies kill-participation 1/2. -/
def mC1 : MatchRec :=
  ⟨⟨420, 0, 0, 0, "",
    [⟨"a", 100, true, 0, 0, 0, 0, "TOP", "ChampA", "", "", "", none⟩,
     ⟨"b", 100, true, 0, 0, 0, 0, "JUNGLE", "ChampB", "", "", "",
       some ⟨some (1/2), none⟩⟩]⟩⟩

/-- A single ranked match in which target "p" goes 1/3/0. -/
def mC7 : MatchRec :=
  ⟨⟨420, 0, 0, 0, "",
    [⟨"p", 100, true, 1, 3, 0, 0, "TOP", "ChampP", "", "", "", none⟩]⟩⟩

def env403then200 : ℕ → AttemptOutcome := fun k =>
  if k = 1 then AttemptOutcome.resp 403 "forbidden" else AttemptOutcome.resp 200 "ok"

def env403always : ℕ → AttemptOutcome := fun _ => AttemptOutcome.resp 403 "forbidden"

/-- Both players have a participant entry in the match (what membership in
duoMatches guarantees before the loop re-finds them). -/
def bothFound (pa pb : String) (m : MatchRec) : Bool :=
  (findParticipant m.info.participants pa).isSome
    && (findParticipant m.info.participants pb).isSome

/-- Player A's entry exists alongside B's and carries win = true (the loop
counts wins from A's own entry). -/
def duoWinA (pa pb : String) (m : MatchRec) : Bool :=
  match findParticipant m.info.participants pa, findParticipant m.info.participants pb with
  | some pA, some _ => pA.win
  | _, _ => false

/-- One caller's interaction with withConcurrency (riotClient, part_002
lines 23 to 35), cut at await granularity into the atomic segments
single-threaded JS runs. arrive is the synchronous prefix of
withConcurrency: the bound check, then on the fast path inFlight++ in the
same segment, or on the wait path queue.push of the resolver and
suspension. release is the finally block: inFlight--, queue.shift and
calling the head's resolver. resume is the woken waiter's continuation,
which falls through to inFlight++ without rechecking the bound. -/
inductive SemAction where
  | arrive (c : ℕ)
  | release (c : ℕ)
  | resume (c : ℕ)
deriving DecidableEq

/-- Completion-phase actions: a schedule built from these contains no new
arrival. -/
inductive CompleteAction where
  | release (c : ℕ)
  | resume (c : ℕ)
deriving DecidableEq

def toSemAction : CompleteAction → SemAction
  | .release c => SemAction.release c
  | .resume c => SemAction.resume c

/-- The semaphore's state: inFlight and queue are the code's variables (the
queue holds the suspended callers' resolvers in push order); woken holds
callers whose resolver was called but whose continuation has not yet run;
running tracks the callers currently holding a slot; enqSeq and wakeSeq
record enqueue order and wake order for the FIFO property. -/
structure SemState where
  inFlight : ℕ
  queue : List ℕ
  woken : List ℕ
  running : List ℕ
  enqSeq : List ℕ
  wakeSeq : List ℕ
deriving DecidableEq

def initSemState : SemState := ⟨0, [], [], [], [], []⟩

/-- One atomic segment. Releasing a caller that is not running and resuming
a caller that was not woken leave the state unchanged: such actions cannot
occur in a real execution, and keeping the step total makes the schedule
space a superset of the realizable ones. -/
def semStep (N : ℕ) (s : SemState) (a : SemAction) : SemState :=
  match a with
  | .arrive c =>
    if N ≤ s.inFlight then
      { s with queue := s.queue ++ [c], enqSeq := s.enqSeq ++ [c] }
    else
      { s with inFlight := s.inFlight + 1, running := s.running ++ [c] }
  | .release c =>
    if c ∈ s.running then
      match s.queue with
      | [] => { s with inFlight := s.inFlight - 1, running := s.running.erase c }
      | w :: rest =>
        { s with inFlight := s.inFlight - 1, running := s.running.erase c,
                 queue := rest, woken := s.woken ++ [w], wakeSeq := s.wakeSeq ++ [w] }
    else s
  | .resume c =>
    if c ∈ s.woken then
      { s with inFlight := s.inFlight + 1, woken := s.woken.erase c,
               running := s.running ++ [c] }
    else s

/-- Run a schedule of semaphore segments from the fresh client's state. -/
def runSem (N : ℕ) (acts : List SemAction) : SemState :=
  acts.foldl (semStep N) initSemState

/-- The counter matches the slot holders and, counting a woken waiter's
pending increment, respects the bound. -/
def SemInv (N : ℕ) (s : SemState) : Prop :=
  s.inFlight = s.running.length ∧ s.inFlight + s.woken.length ≤ N

/-- The barging schedule: with max concurrency 1, caller 0 holds the slot,
caller 1 waits, caller 0's release wakes caller 1, caller 2 arrives on the
fast path before caller 1's continuation runs, and caller 1 then resumes. -/
def bargeSchedule : List SemAction :=
  [SemAction.arrive 0, SemAction.arrive 1, SemAction.release 0,
   SemAction.arrive 2, SemAction.resume 1]

theorem pairKey_comm (a b : String) : pairKey a b = pairKey b a := by
  unfold pairKey
  rcases le_or_lt a b with h | h
  · rcases eq_or_lt_of_le h with rfl | hlt
    · simp
    · rw [if_pos h, if_neg (not_le.mpr hlt)]
  · rw [if_neg (not_le.mpr h), if_pos h.le]

/-- C2: evaluation of the retry loop at non-retryable statuses. A 403 on
attempt 1 followed by a 200 yields a success on attempt 2, and seven straight
403s yield the typed error only on attempt 7 — the code retries statuses the
spec says fail immediately with no further attempt. -/
theorem claim_C2_non_retryable_status_is_retried :
    request env403then200 = ReqResult.success "ok" 2
  ∧ request env403always = ReqResult.riotError 403 "forbidden" 7 := by
  constructor <;> rfl

theorem playstyle_foldl (pid : String) (ms : List MatchRec) (acc : PlaystyleAcc) :
    ms.foldl (playstyleStep pid) acc =
      ⟨acc.totalKills + ((targetEntries pid ms).map Participant.kills).sum,
       acc.totalDeaths + ((targetEntries pid ms).map Participant.deaths).sum,
       acc.totalAssists + ((targetEntries pid ms).map Participant.assists).sum,
       acc.totalKillParticipation + (presentKP pid ms).sum,
       acc.totalVisionScore + ((targetEntries pid ms).map Participant.visionScore).sum,
       acc.totalTeamDamageShare + (presentTD pid ms).sum,
       acc.countWithKP + (presentKP pid ms).length,
       acc.countWithDamageShare + (presentTD pid ms).length⟩ := by
  induction ms generalizing acc with
  | nil =>
    cases acc
    simp [targetEntries, presentKP, presentTD]
  | cons m t ih =>
    rw [List.foldl_cons, ih]
    cases h : findParticipant m.info.participants pid with
    | none =>
      simp [playstyleStep, h, targetEntries, presentKP, presentTD, List.filterMap_cons]
    | some p =>
      simp only [playstyleStep, h, targetEntries, presentKP, presentTD, List.filterMap_cons]
      cases acc
      cases hk : kpOf p <;> cases hd : tdOf p <;>
        simp [hk, hd, PlaystyleAcc.mk.injEq]
      all_goals repeat' apply And.intro
      all_goals ring

theorem jsOrNat_one (a : ℕ) : jsOrNat a 1 = max a 1 := by
  unfold jsOrNat
  split <;> omega

/-- C4 counterexample: the empty duo subset returns the early summary whose
low-sample flag field is absent (none), not true, although the claim says a
0-match subset yields flag true. -/
theorem claim_C4_counterexample :
    (generateDuoSummary "a" "b" []).sampleSize = 0
  ∧ (generateDuoSummary "a" "b" []).lowSample = none
  ∧ (generateDuoSummary "a" "b" []).lowSample ≠ some true := by
  have h : (generateDuoSummary "a" "b" []).lowSample = none := rfl
  exact ⟨rfl, h, by rw [h]; simp⟩

/-- C4 amended: for a non-empty duo subset the low-sample flag is present
(and true) exactly when the subset size is below 5, and the field is absent
— never the value false — when the size is 5 or more or the subset is
empty. -/
theorem claim_C4_amended (pa pb : String) (ms : List MatchRec) :
    ((generateDuoSummary pa pb ms).lowSample = some true
      ↔ (0 < (duoMatchesOf pa pb ms).length ∧ (duoMatchesOf pa pb ms).length < 5))
  ∧ ((generateDuoSummary pa pb ms).lowSample = none
      ↔ ((duoMatchesOf pa pb ms).length = 0 ∨ 5 ≤ (duoMatchesOf pa pb ms).length))
  ∧ (generateDuoSummary pa pb ms).lowSample ≠ some false := by
  have hn : (duoMatchesOf pa pb ms).isEmpty = true ↔ (duoMatchesOf pa pb ms).length = 0 := by
    rw [List.isEmpty_iff, List.length_eq_zero]
  unfold generateDuoSummary
  by_cases hd : (duoMatchesOf pa pb ms).isEmpty
  · have h0 := hn.mp hd
    simp [hd, h0]
  · have h0 : (duoMatchesOf pa pb ms).length ≠ 0 := fun h => hd (hn.mpr h)
    have hne : duoMatchesOf pa pb ms ≠ [] := fun h => h0 (by simp [h])
    by_cases h5 : (duoMatchesOf pa pb ms).length < 5
    · simp [hd, h5, hne]
      omega
    · simp [hd, h5, hne]
      omega

/-- C7 counterexample: one match with 1 kill, 3 deaths, 0 assists gives
avgKDA = 0.33 after the code's two-decimal rounding, which differs from the
claimed exact quotient 1/3. -/
theorem claim_C7_counterexample :
    (calculatePlaystyleMetrics [mC7] "p").avgKDA = 33/100
  ∧ ((1 : ℚ) + 0) / max (3 : ℚ) 1 = 1/3
  ∧ (33 : ℚ)/100 ≠ 1/3 := by
  refine ⟨?_, by norm_num, by norm_num⟩
  have h : (calculatePlaystyleMetrics [mC7] "p").avgKDA = round2 ((1 : ℚ) / 3) := by
    norm_num [calculatePlaystyleMetrics, mC7, playstyleStep, initPlaystyleAcc,
      findParticipant, jsOrNat, kpOf, tdOf]
  rw [h]
  unfold round2 jsRound
  norm_num [Int.floor_eq_iff]

/-- C7 amended: average KDA equals (sum kills + sum assists) divided by
max(sum deaths, 1), rounded to two decimals; the denominator floor is
positive, so the quotient is a well-defined finite rational even with zero
deaths. -/
theorem claim_C7_amended (ms : List MatchRec) (pid : String) :
    ((calculatePlaystyleMetrics ms pid).avgKDA
      = round2 (((((targetEntries pid ms).map Participant.kills).sum
            + ((targetEntries pid ms).map Participant.assists).sum : ℕ) : ℚ)
          / ((max (((targetEntries pid ms).map Participant.deaths).sum) 1 : ℕ) : ℚ)))
  ∧ 0 < max (((targetEntries pid ms).map Participant.deaths).sum) 1 := by
  constructor
  · unfold calculatePlaystyleMetrics
    rw [playstyle_foldl]
    simp only [initPlaystyleAcc, Nat.zero_add, zero_add]
    rw [jsOrNat_one]
    congr 1
    push_cast
    ring
  · omega

/-- C8: the playstyle kill-participation and team-damage-share averages are
each computed only over the matches where the target supplies that field,
and are null — not 0 — exactly when no match supplies it. -/
theorem claim_C8_optional_averages (ms : List MatchRec) (pid : String) :
    ((calculatePlaystyleMetrics ms pid).avgKillParticipation
      = if presentKP pid ms = [] then none
        else some (round2 ((presentKP pid ms).sum / ((presentKP pid ms).length : ℚ))))
  ∧ ((calculatePlaystyleMetrics ms pid).avgTeamDamageShare
      = if presentTD pid ms = [] then none
        else some (round2 ((presentTD pid ms).sum / ((presentTD pid ms).length : ℚ)))) := by
  unfold calculatePlaystyleMetrics
  rw [playstyle_foldl]
  constructor
  · by_cases hkp : presentKP pid ms = []
    · simp [hkp, initPlaystyleAcc]
    · have hpos : 0 < (presentKP pid ms).length := List.length_pos.mpr hkp
      simp [hkp, initPlaystyleAcc, hpos]
  · by_cases htd : presentTD pid ms = []
    · simp [htd, initPlaystyleAcc]
    · have hpos : 0 < (presentTD pid ms).length := List.length_pos.mpr htd
      simp [htd, initPlaystyleAcc, hpos]

theorem bothFound_of_mem_duo (pa pb : String) (ms : List MatchRec) (m : MatchRec)
    (hm : m ∈ duoMatchesOf pa pb ms) : bothFound pa pb m = true := by
  unfold duoMatchesOf at hm
  have hp := List.of_mem_filter hm
  unfold bothFound
  cases h1 : findParticipant m.info.participants pa <;>
    cases h2 : findParticipant m.info.participants pb <;>
    simp [h1, h2] at hp ⊢

theorem duo_foldl_synergy (pa pb : String) (ms : List MatchRec) (acc : DuoAcc)
    (h : ∀ m ∈ ms, bothFound pa pb m = true) :
    ((ms.foldl (duoStep pa pb) acc).totalKPa = acc.totalKPa + (presentKP pa ms).sum)
  ∧ ((ms.foldl (duoStep pa pb) acc).totalKPb = acc.totalKPb + (presentKP pb ms).sum)
  ∧ ((ms.foldl (duoStep pa pb) acc).totalDamagePctA
      = acc.totalDamagePctA + (presentTD pa ms).sum)
  ∧ ((ms.foldl (duoStep pa pb) acc).totalDamagePctB
      = acc.totalDamagePctB + (presentTD pb ms).sum)
  ∧ ((ms.foldl (duoStep pa pb) acc).countWithData
      = acc.countWithData + (presentKP pa ms).length)
  ∧ ((ms.foldl (duoStep pa pb) acc).wins = acc.wins + ms.countP (duoWinA pa pb)) := by
  induction ms generalizing acc with
  | nil => simp [presentKP, presentTD, targetEntries]
  | cons m t ih =>
    have hm := h m (List.mem_cons_self m t)
    have ht : ∀ x ∈ t, bothFound pa pb x = true := fun x hx => h x (List.mem_cons_of_mem m hx)
    cases h1 : findParticipant m.info.participants pa with
    | none => simp [bothFound, h1] at hm
    | some pA =>
      cases h2 : findParticipant m.info.participants pb with
      | none => simp [bothFound, h1, h2] at hm
      | some pB =>
        obtain ⟨i1, i2, i3, i4, i5, i6⟩ := ih (duoStep pa pb acc m) ht
        rw [List.foldl_cons] at *
        refine ⟨?_, ?_, ?_, ?_, ?_, ?_⟩
        · rw [i1]
          simp only [duoStep, h1, h2, presentKP, targetEntries, List.filterMap_cons]
          cases hk : kpOf pA <;> simp [hk] <;> ring
        · rw [i2]
          simp only [duoStep, h1, h2, presentKP, targetEntries, List.filterMap_cons]
          cases hk : kpOf pB <;> simp [hk] <;> ring
        · rw [i3]
          simp only [duoStep, h1, h2, presentTD, targetEntries, List.filterMap_cons]
          cases hk : tdOf pA <;> simp [hk] <;> ring
        · rw [i4]
          simp only [duoStep, h1, h2, presentTD, targetEntries, List.filterMap_cons]
          cases hk : tdOf pB <;> simp [hk] <;> ring
        · rw [i5]
          simp only [duoStep, h1, h2, presentKP, targetEntries, List.filterMap_cons]
          cases hk : kpOf pA <;> simp [hk] <;> omega
        · rw [i6]
          simp only [duoStep, h1, h2, List.countP_cons, duoWinA]
          cases hw : pA.win <;> simp [hw] <;> omega

/-- C1 counterexample: B supplies kill-participation in the only duo match,
yet the code reports null for B because the shared denominator counts only
matches where A's field is present. -/
theorem claim_C1_counterexample :
    (generateDuoSummary "a" "b" [mC1]).synergy.map DuoSynergy.avgKillParticipationB = some none
  ∧ presentKP "b" (duoMatchesOf "a" "b" [mC1]) = [(1 : ℚ)/2]
  ∧ specPerPlayerAverage (presentKP "b" (duoMatchesOf "a" "b" [mC1])) = some ((1 : ℚ)/2)
  ∧ (some (none : Option ℚ) : Option (Option ℚ)) ≠ some (some ((1 : ℚ)/2)) := by
  have h2 : presentKP "b" (duoMatchesOf "a" "b" [mC1]) = [(1 : ℚ)/2] := rfl
  refine ⟨rfl, h2, ?_, by simp⟩
  rw [h2]
  norm_num [specPerPlayerAverage]

/-- C1 amended: all four optional synergy averages share one denominator,
the count of duo matches in which player A's kill-participation is present;
each numerator is that player's own sum over matches where that player's
field is present. -/
theorem claim_C1_amended (pa pb : String) (ms : List MatchRec) :
    ((generateDuoSummary pa pb ms).synergy.map DuoSynergy.avgKillParticipationA
      = if (duoMatchesOf pa pb ms).isEmpty then none
        else some (if presentKP pa (duoMatchesOf pa pb ms) = [] then none
          else some (round2 ((presentKP pa (duoMatchesOf pa pb ms)).sum
              / ((presentKP pa (duoMatchesOf pa pb ms)).length : ℚ)))))
  ∧ ((generateDuoSummary pa pb ms).synergy.map DuoSynergy.avgKillParticipationB
      = if (duoMatchesOf pa pb ms).isEmpty then none
        else some (if presentKP pa (duoMatchesOf pa pb ms) = [] then none
          else some (round2 ((presentKP pb (duoMatchesOf pa pb ms)).sum
              / ((presentKP pa (duoMatchesOf pa pb ms)).length : ℚ)))))
  ∧ ((generateDuoSummary pa pb ms).synergy.map DuoSynergy.avgTeamDamagePctA
      = if (duoMatchesOf pa pb ms).isEmpty then none
        else some (if presentKP pa (duoMatchesOf pa pb ms) = [] then none
          else some (round2 ((presentTD pa (duoMatchesOf pa pb ms)).sum
              / ((presentKP pa (duoMatchesOf pa pb ms)).length : ℚ)))))
  ∧ ((generateDuoSummary pa pb ms).synergy.map DuoSynergy.avgTeamDamagePctB
      = if (duoMatchesOf pa pb ms).isEmpty then none
        else some (if presentKP pa (duoMatchesOf pa pb ms) = [] then none
          else some (round2 ((presentTD pb (duoMatchesOf pa pb ms)).sum
              / ((presentKP pa (duoMatchesOf pa pb ms)).length : ℚ))))) := by
  obtain ⟨i1, i2, i3, i4, i5, i6⟩ :=
    duo_foldl_synergy pa pb (duoMatchesOf pa pb ms) initDuoAcc
      (fun m hm => bothFound_of_mem_duo pa pb ms m hm)
  have e1 : initDuoAcc.totalKPa = 0 := rfl
  have e2 : initDuoAcc.totalKPb = 0 := rfl
  have e3 : initDuoAcc.totalDamagePctA = 0 := rfl
  have e4 : initDuoAcc.totalDamagePctB = 0 := rfl
  have e5 : initDuoAcc.countWithData = 0 := rfl
  rw [e1, zero_add] at i1
  rw [e2, zero_add] at i2
  rw [e3, zero_add] at i3
  rw [e4, zero_add] at i4
  rw [e5, Nat.zero_add] at i5
  unfold generateDuoSummary
  by_cases hd : (duoMatchesOf pa pb ms).isEmpty
  · simp [hd]
  · by_cases hkp : presentKP pa (duoMatchesOf pa pb ms) = []
    · simp [hd, hkp, i5]
    · have hpos : 0 < (presentKP pa (duoMatchesOf pa pb ms)).length :=
        List.length_pos.mpr hkp
      simp [hd, hkp, i1, i2, i3, i4, i5, hpos]

theorem bumpQueue_games_sum (l : List QueueBucket) (q : ℕ) (w : Bool) :
    ((bumpQueue l q w).map QueueBucket.games).sum = (l.map QueueBucket.games).sum + 1 := by
  induction l with
  | nil => simp [bumpQueue]
  | cons b rest ih =>
    by_cases hb : b.queueId = q
    · simp [bumpQueue, hb]
      omega
    · simp [bumpQueue, hb, ih]
      omega

theorem bumpQueue_wins_le (l : List QueueBucket) (q : ℕ) (w : Bool)
    (h : ∀ b ∈ l, b.wins ≤ b.games) :
    ∀ b ∈ bumpQueue l q w, b.wins ≤ b.games := by
  induction l with
  | nil =>
    intro b hb
    cases w <;> simp [bumpQueue] at hb <;> simp [hb]
  | cons c rest ih =>
    intro b hb
    by_cases hc : c.queueId = q
    · simp [bumpQueue, hc] at hb
      rcases hb with hb | hb
      · have := h c (List.mem_cons_self c rest)
        cases w <;> simp [hb] <;> omega
      · exact h b (List.mem_cons_of_mem c hb)
    · simp [bumpQueue, hc] at hb
      rcases hb with hb | hb
      · exact h b (by simp [hb])
      · exact ih (fun x hx => h x (List.mem_cons_of_mem c hx)) b hb

theorem duo_foldl_queue (pa pb : String) (ms : List MatchRec) (acc : DuoAcc)
    (h : ∀ m ∈ ms, bothFound pa pb m = true) :
    (((ms.foldl (duoStep pa pb) acc).queueBreakdown.map QueueBucket.games).sum
        = (acc.queueBreakdown.map QueueBucket.games).sum + ms.length)
  ∧ ((∀ b ∈ acc.queueBreakdown, b.wins ≤ b.games) →
      ∀ b ∈ (ms.foldl (duoStep pa pb) acc).queueBreakdown, b.wins ≤ b.games) := by
  induction ms generalizing acc with
  | nil => simp
  | cons m t ih =>
    have hm := h m (List.mem_cons_self m t)
    have ht : ∀ x ∈ t, bothFound pa pb x = true := fun x hx => h x (List.mem_cons_of_mem m hx)
    cases h1 : findParticipant m.info.participants pa with
    | none => simp [bothFound, h1] at hm
    | some pA =>
      cases h2 : findParticipant m.info.participants pb with
      | none => simp [bothFound, h1, h2] at hm
      | some pB =>
        obtain ⟨j1, j2⟩ := ih (duoStep pa pb acc m) ht
        rw [List.foldl_cons] at *
        constructor
        · rw [j1]
          have hq : (duoStep pa pb acc m).queueBreakdown
              = bumpQueue acc.queueBreakdown m.info.queueId pA.win := by
            simp [duoStep, h1, h2]
          rw [hq, bumpQueue_games_sum]
          simp
          omega
        · intro hinv
          apply j2
          have hq : (duoStep pa pb acc m).queueBreakdown
              = bumpQueue acc.queueBreakdown m.info.queueId pA.win := by
            simp [duoStep, h1, h2]
          rw [hq]
          exact bumpQueue_wins_le acc.queueBreakdown m.info.queueId pA.win hinv

/-- C10: in every duo summary, wins is at most sampleSize, the per-queue
games counts sum exactly to sampleSize, and each queue's wins is at most
its games. -/
theorem claim_C10_invariants (pa pb : String) (ms : List MatchRec) :
    (generateDuoSummary pa pb ms).wins ≤ (generateDuoSummary pa pb ms).sampleSize
  ∧ (((generateDuoSummary pa pb ms).queueBreakdown.map QueueBucket.games).sum
      = (generateDuoSummary pa pb ms).sampleSize)
  ∧ ((generateDuoSummary pa pb ms).queueBreakdown.all
      (fun b => decide (b.wins ≤ b.games)) = true) := by
  obtain ⟨i1, i2, i3, i4, i5, i6⟩ :=
    duo_foldl_synergy pa pb (duoMatchesOf pa pb ms) initDuoAcc
      (fun m hm => bothFound_of_mem_duo pa pb ms m hm)
  obtain ⟨j1, j2⟩ :=
    duo_foldl_queue pa pb (duoMatchesOf pa pb ms) initDuoAcc
      (fun m hm => bothFound_of_mem_duo pa pb ms m hm)
  have e6 : initDuoAcc.wins = 0 := rfl
  have eq0 : initDuoAcc.queueBreakdown = [] := rfl
  rw [e6, Nat.zero_add] at i6
  rw [eq0] at j1
  simp only [List.map_nil, List.sum_nil, Nat.zero_add] at j1
  unfold generateDuoSummary
  by_cases hd : (duoMatchesOf pa pb ms).isEmpty
  · simp [hd]
  · have hcount : List.countP (duoWinA pa pb) (duoMatchesOf pa pb ms)
        ≤ (duoMatchesOf pa pb ms).length := List.countP_le_length _
    have hwle : ∀ b ∈ (List.foldl (duoStep pa pb) initDuoAcc (duoMatchesOf pa pb ms)).queueBreakdown,
        b.wins ≤ b.games := by
      apply j2
      rw [eq0]
      intro b hb
      simp at hb
    simp [hd, i6, j1]
    constructor
    · exact hcount
    · intro b hb
      exact hwle b hb

/-- C9: pair keys are canonicalized by sorting, so (X, Y) in one match and
(Y, X) in another land in one combined bucket in both the duo aggregation
and the frequent-teammates aggregation. -/
theorem claim_C9_pair_key_canonical (X Y : String) :
    pairKey X Y = pairKey Y X
  ∧ (generateDuoSummary "a" "b" [duoRoleMatch X Y, duoRoleMatch Y X]).rolePairs
      = [⟨(roleStr X, roleStr Y), 2, 0⟩]
  ∧ ((teammateStatsMap [mateRoleMatch X Y, mateRoleMatch Y X] "t").lookup "m").map
        TmRaw.rolePairs
      = some [(pairKey (roleStr X) (roleStr Y), 2)] := by
  refine ⟨pairKey_comm X Y, ?_, ?_⟩
  · have hb : bumpPair [(pairKey (roleStr X) (roleStr Y), ⟨(roleStr X, roleStr Y), 1, 0⟩)]
        (roleStr Y) (roleStr X) false
        = [(pairKey (roleStr X) (roleStr Y), ⟨(roleStr X, roleStr Y), 2, 0⟩)] := by
      simp [bumpPair, pairKey_comm (roleStr Y) (roleStr X)]
    show sortDesc PairBucket.games
        ((bumpPair [(pairKey (roleStr X) (roleStr Y), ⟨(roleStr X, roleStr Y), 1, 0⟩)]
          (roleStr Y) (roleStr X) false).map Prod.snd)
      = [⟨(roleStr X, roleStr Y), 2, 0⟩]
    rw [hb]
    rfl
  · have hbc : bumpCount [(pairKey (roleStr X) (roleStr Y), 1)]
        (pairKey (roleStr Y) (roleStr X))
        = [(pairKey (roleStr X) (roleStr Y), 2)] := by
      simp [bumpCount, pairKey_comm (roleStr Y) (roleStr X)]
    show (some (bumpCount [(pairKey (roleStr X) (roleStr Y), 1)]
        (pairKey (roleStr Y) (roleStr X))) : Option (List (String × ℕ)))
      = some [(pairKey (roleStr X) (roleStr Y), 2)]
    rw [hbc]

theorem jsRound_mono (a b : ℚ) (h : a ≤ b) : jsRound a ≤ jsRound b := by
  unfold jsRound
  exact Int.floor_mono (by linarith)

theorem isNonDecreasing_iff_chain (l : List ℤ) :
    isNonDecreasing l = true ↔ l.Chain' (· ≤ ·) := by
  induction l with
  | nil => simp [isNonDecreasing]
  | cons a t ih =>
    cases t with
    | nil => simp [isNonDecreasing]
    | cons b u =>
      simp [isNonDecreasing, List.chain'_cons, Bool.and_eq_true, decide_eq_true_eq] at ih ⊢
      tauto

theorem runSchedule_serialOf (p : List ℤ) (idxs : List ℕ) (s : RMWState) :
    ((serialOf idxs).foldl (applyUpd p) s).trace
      = s.trace ++ idxs.map (fun i => p.getD i 0) := by
  induction idxs generalizing s with
  | nil => simp [serialOf]
  | cons i t ih =>
    simp only [serialOf, List.foldl_cons]
    rw [ih]
    simp [applyUpd]

theorem getD_map_range (g : ℕ → ℤ) (n i : ℕ) (h : i < n) :
    ((List.range n).map g).getD i 0 = g i := by
  rw [List.getD_eq_getElem?_getD, List.getElem?_map, List.getElem?_range h]
  rfl

theorem progressValues_two : progressValues 2 = [50, 100] := by
  unfold progressValues jsRound
  norm_num [List.range_succ, Int.floor_eq_iff]

/-- C5 counterexample: a well-formed overlapped completion order of the two
progress updates persists 100 and then 50, a strictly decreasing sequence. -/
theorem claim_C5_counterexample :
    isRMWSchedule 2 overlappedSchedule = true
  ∧ progressValues 2 = [50, 100]
  ∧ (runSchedule (progressValues 2) overlappedSchedule).trace = [100, 50]
  ∧ isNonDecreasing ((runSchedule (progressValues 2) overlappedSchedule).trace) = false := by
  refine ⟨by decide, progressValues_two, ?_, ?_⟩
  · rw [progressValues_two]
    decide
  · rw [progressValues_two]
    decide

/-- C5 amended: the submitted progress sequence is non-decreasing, and a
serialized execution persists exactly that sequence. -/
theorem claim_C5_amended (n : ℕ) :
    ((runSchedule (progressValues n) (serialSchedule n)).trace = progressValues n)
  ∧ isNonDecreasing (progressValues n) = true := by
  constructor
  · unfold runSchedule serialSchedule
    rw [runSchedule_serialOf]
    simp only [List.nil_append]
    unfold progressValues
    apply List.map_congr_left
    intro i hi
    exact getD_map_range _ n i (List.mem_range.mp hi)
  · rw [isNonDecreasing_iff_chain]
    unfold progressValues
    rw [List.chain'_map]
    cases n with
    | zero => simp
    | succ m =>
      rw [List.chain'_range_succ]
      intro k hk
      apply jsRound_mono
      have hpos : (0 : ℚ) < ((m + 1 : ℕ) : ℚ) := by positivity
      rw [div_mul_eq_mul_div, div_mul_eq_mul_div, div_le_div_iff hpos hpos]
      push_cast
      nlinarith

/-- C6: after the job is marked running, every outcome leads to a terminal
status: error with the first fatal step's message when one fails, complete
otherwise; never running. -/
theorem claim_C6_terminal_status (o : JobOutcomes) :
    ((processJob o).status = JobStatus.error ↔ (firstFatalError o).isSome = true)
  ∧ (processJob o).error = firstFatalError o
  ∧ ((processJob o).status = JobStatus.complete ↔ firstFatalError o = none)
  ∧ (processJob o).status ≠ JobStatus.running := by
  obtain ⟨m1, m2, m3, m4, m5, m6, m7, m8, m9, m10⟩ := o
  cases m1 <;> cases m2 <;> cases m3 <;> cases m4 <;> cases m6 <;> cases m8 <;>
    cases m9 <;> cases m10 <;>
    simp [processJob, processJobBody, firstFatalError, Except.bind, bind]

theorem semStep_fifo (N : ℕ) (s : SemState) (a : SemAction)
    (h : s.enqSeq = s.wakeSeq ++ s.queue) :
    (semStep N s a).enqSeq = (semStep N s a).wakeSeq ++ (semStep N s a).queue := by
  cases a with
  | arrive c =>
    by_cases hb : N ≤ s.inFlight <;> simp [semStep, hb, h, List.append_assoc]
  | release c =>
    by_cases hr : c ∈ s.running
    · cases hq : s.queue with
      | nil =>
        rw [hq] at h
        simp only [List.append_nil] at h
        simp [semStep, hr, hq, h]
      | cons w rest =>
        rw [hq] at h
        simp [semStep, hr, hq, h, List.append_assoc]
    · simp [semStep, hr, h]
  | resume c =>
    by_cases hw : c ∈ s.woken <;> simp [semStep, hw, h]

theorem foldl_fifo (N : ℕ) (acts : List SemAction) (s : SemState)
    (h : s.enqSeq = s.wakeSeq ++ s.queue) :
    (acts.foldl (semStep N) s).enqSeq
      = (acts.foldl (semStep N) s).wakeSeq ++ (acts.foldl (semStep N) s).queue := by
  induction acts generalizing s with
  | nil => simpa using h
  | cons a t ih =>
    simp only [List.foldl_cons]
    exact ih _ (semStep_fifo N s a h)

theorem semStep_arrive_inv (N : ℕ) (s : SemState) (c : ℕ)
    (h : SemInv N s) (hw : s.woken = []) :
    SemInv N (semStep N s (SemAction.arrive c))
      ∧ (semStep N s (SemAction.arrive c)).woken = [] := by
  obtain ⟨h1, h2⟩ := h
  by_cases hb : N ≤ s.inFlight
  · refine ⟨⟨?_, ?_⟩, ?_⟩
    · simp [semStep, hb]
      omega
    · simp [semStep, hb]
      omega
    · simp [semStep, hb, hw]
  · refine ⟨⟨?_, ?_⟩, ?_⟩
    · simp [semStep, hb]
      omega
    · simp [semStep, hb, hw]
      omega
    · simp [semStep, hb, hw]

theorem semStep_complete_inv (N : ℕ) (s : SemState) (c : CompleteAction)
    (h : SemInv N s) : SemInv N (semStep N s (toSemAction c)) := by
  obtain ⟨h1, h2⟩ := h
  cases c with
  | release c =>
    by_cases hr : c ∈ s.running
    · have hlen : 0 < s.running.length := List.length_pos.mpr (List.ne_nil_of_mem hr)
      have herase : (s.running.erase c).length = s.running.length - 1 :=
        List.length_erase_of_mem hr
      cases hq : s.queue with
      | nil =>
        simp [semStep, toSemAction, hr, hq, SemInv, herase]
        omega
      | cons w rest =>
        simp [semStep, toSemAction, hr, hq, SemInv, herase]
        omega
    · simpa [semStep, toSemAction, hr, SemInv] using ⟨h1, h2⟩
  | resume c =>
    by_cases hw : c ∈ s.woken
    · have hlen : 0 < s.woken.length := List.length_pos.mpr (List.ne_nil_of_mem hw)
      have herase : (s.woken.erase c).length = s.woken.length - 1 :=
        List.length_erase_of_mem hw
      simp [semStep, toSemAction, hw, SemInv, herase]
      omega
    · simpa [semStep, toSemAction, hw, SemInv] using ⟨h1, h2⟩

theorem runSem_arrivals_inv (N : ℕ) (cs : List ℕ) (s : SemState)
    (h : SemInv N s) (hw : s.woken = []) :
    SemInv N ((cs.map SemAction.arrive).foldl (semStep N) s)
      ∧ ((cs.map SemAction.arrive).foldl (semStep N) s).woken = [] := by
  induction cs generalizing s with
  | nil => exact ⟨h, hw⟩
  | cons c t ih =>
    simp only [List.map_cons, List.foldl_cons]
    obtain ⟨hi, hwi⟩ := semStep_arrive_inv N s c h hw
    exact ih _ hi hwi

theorem runSem_completions_inv (N : ℕ) (cs : List CompleteAction) (s : SemState)
    (h : SemInv N s) :
    SemInv N ((cs.map toSemAction).foldl (semStep N) s) := by
  induction cs generalizing s with
  | nil => exact h
  | cons c t ih =>
    simp only [List.map_cons, List.foldl_cons]
    exact ih _ (semStep_complete_inv N s c h)

/-- C3 counterexample: with max concurrency 1 the barging schedule is an
await-granularity execution — caller 1 is waiting after two arrivals, caller
0's release wakes it, caller 2 then arrives on the fast path into the freed
slot, and caller 1's resume increments inFlight without rechecking — ending
with 2 requests in flight, exceeding the bound. -/
theorem claim_C3_counterexample :
    (runSem 1 bargeSchedule).inFlight = 2
  ∧ ¬((runSem 1 bargeSchedule).inFlight ≤ 1)
  ∧ (runSem 1 (bargeSchedule.take 2)).queue = [1]
  ∧ (runSem 1 (bargeSchedule.take 3)).woken = [1]
  ∧ (runSem 1 (bargeSchedule.take 3)).inFlight = 0
  ∧ (runSem 1 (bargeSchedule.take 4)).inFlight = 1 := by
  decide

/-- C3 amended: waiting callers are woken in exactly their enqueue order
(the wake sequence plus the remaining queue is always the enqueue sequence),
and on every schedule in which all callers arrive before completions begin —
in particular 20 concurrent calls against max concurrency 5 — the in-flight
count stays at or below the bound at every instant (every prefix). The bound
is not maintained for callers arriving while a woken waiter is pending, as
the counterexample shows. -/
theorem claim_C3_amended (N : ℕ) (callers : List ℕ) (cs : List CompleteAction)
    (acts : List SemAction) (j k : ℕ) :
    ((runSem N (acts.take j)).enqSeq
      = (runSem N (acts.take j)).wakeSeq ++ (runSem N (acts.take j)).queue)
  ∧ (runSem N ((callers.map SemAction.arrive ++ cs.map toSemAction).take k)).inFlight
      ≤ N := by
  constructor
  · exact foldl_fifo N (acts.take j) initSemState rfl
  · rw [List.take_append_eq_append_take]
    unfold runSem
    rw [List.foldl_append]
    rw [← List.map_take SemAction.arrive callers k,
        ← List.map_take toSemAction cs (k - (callers.map SemAction.arrive).length)]
    have hinit : SemInv N initSemState := by
      constructor <;> simp [initSemState]
    obtain ⟨hi1, hi2⟩ := runSem_arrivals_inv N (callers.take k) initSemState hinit rfl
    obtain ⟨hlen, hle⟩ :=
      runSem_completions_inv N (cs.take (k - (callers.map SemAction.arrive).length)) _ hi1
    omega
